import Mathlib

/-!
Verification development for `monitor_inverter.py` (YRA Color Inverter).

The Python source is shallowly embedded: pixel frames are functions from
(row, column, channel) to uint8 values represented as `Nat` (kept below
256; `% 256` and `&&&` model uint8 arithmetic where it matters), screen
rectangles are quadruples of integers `(left, top, right, bottom)`, time
values polled from the clock are exact rationals, and the stateful loops
(`WindowsKeyDetector.detection_loop`, `ColorInverter.capture_and_invert`,
`InverterGUI` lifecycle) are explicit step functions over state types.
-/

/-- A screen rectangle `(left, top, right, bottom)` in integer screen
coordinates, as produced by `win32gui.GetWindowRect` and by monitor
enumeration. -/
structure Rect where
  left : Int
  top : Int
  right : Int
  bottom : Int
deriving DecidableEq

/-- A captured RGB frame: the pixel channel value at (row `y`, column `x`,
channel `c`).  The capture loop stores uint8 values, i.e. values in
`[0, 255]`. -/
def Frame : Type := Int → Int → Fin 3 → Nat

/-- `ColorInverter.invert_colors`: `255 - image` on a uint8 numpy array.
The `% 256` records that a stored uint8 value lies below 256, so the
subtraction never borrows. -/
def invert_colors (img : Frame) : Frame :=
  fun y x c => 255 - img y x c % 256

/-- One iteration of the rectangle loop in
`ColorInverter.mask_video_regions`: whether mask entry `(y, x)` is zeroed
for video rectangle `v` on monitor `m`.  The code translates the video
rectangle to monitor-local coordinates (`rel_x = max(0, vx - mx)`,
`rel_right = min(mright - mx, vright - mx)`, similarly vertically) and
writes zeros into the slice `[rel_y:rel_bottom, rel_x:rel_right]` only when
`rel_x < rel_right and rel_y < rel_bottom`. -/
def inMaskedRegion (m v : Rect) (y x : Int) : Bool :=
  if max 0 (v.left - m.left) < min (m.right - m.left) (v.right - m.left) ∧
      max 0 (v.top - m.top) < min (m.bottom - m.top) (v.bottom - m.top) then
    decide (max 0 (v.top - m.top) ≤ y ∧ y < min (m.bottom - m.top) (v.bottom - m.top) ∧
      max 0 (v.left - m.left) ≤ x ∧ x < min (m.right - m.left) (v.right - m.left))
  else false

/-- The mask built by `mask_video_regions` (`np.ones(...) * 255`, then zeroed
slices): entry `(y, x)` is `0` when some video rectangle covers it, else
`255`. -/
def maskAt (m : Rect) (vws : List Rect) (y x : Int) : Nat :=
  if vws.any (fun v => inMaskedRegion m v y x) then 0 else 255

/-- `ColorInverter.mask_video_regions`: with no video windows the frame is
returned untouched (`if not video_windows: return image`); otherwise every
channel is combined with the 0/255 mask by `cv2.bitwise_and`. -/
def mask_video_regions (m : Rect) (vws : List Rect) (img : Frame) : Frame :=
  if vws.isEmpty then img
  else fun y x c => img y x c &&& maskAt m vws y x

/-- The frame produced by one active cycle of
`ColorInverter.capture_and_invert` from the captured frame `img`: invert,
then mask the video rectangles when there are any. -/
def capture_and_invert_cycle (m : Rect) (vws : List Rect) (img : Frame) : Frame :=
  if vws.isEmpty then invert_colors img
  else mask_video_regions m vws (invert_colors img)

/-- Modelled from the spec's words for FrameCapturePipeline step 4: clip the
rectangle, translated to monitor-local coordinates, to
`[0, width] × [0, height]`; this decides membership of pixel `(y, x)` in the
clipped rectangle. -/
def specClipContains (m v : Rect) (y x : Int) : Bool :=
  decide (max 0 (min (m.bottom - m.top) (v.top - m.top)) ≤ y ∧
    y < max 0 (min (m.bottom - m.top) (v.bottom - m.top)) ∧
    max 0 (min (m.right - m.left) (v.left - m.left)) ≤ x ∧
    x < max 0 (min (m.right - m.left) (v.right - m.left)))

theorem inMaskedRegion_eq_specClip (m v : Rect) (y x : Int) :
    inMaskedRegion m v y x = specClipContains m v y x := by
  unfold inMaskedRegion specClipContains
  by_cases hg : max 0 (v.left - m.left) < min (m.right - m.left) (v.right - m.left) ∧
      max 0 (v.top - m.top) < min (m.bottom - m.top) (v.bottom - m.top)
  · rw [if_pos hg, decide_eq_decide]
    omega
  · rw [if_neg hg]
    symm
    rw [decide_eq_false_iff_not]
    omega

theorem and_255_of_le {n : Nat} (h : n ≤ 255) : n &&& 255 = n := by
  have h8 : n &&& 2 ^ 8 - 1 = n % 2 ^ 8 := Nat.and_pow_two_sub_one_eq_mod n 8
  norm_num at h8
  rw [h8]
  omega

/-- C6: for every pixel channel value `v` in `[0, 255]`, the inversion
transform of `invert_colors` satisfies `invert v = 255 - v` and applying it
twice returns `v` exactly. -/
theorem invert_invert_identity (img : Frame) (y x : Int) (c : Fin 3)
    (h : img y x c ≤ 255) :
    invert_colors (invert_colors img) y x c = img y x c ∧
    invert_colors img y x c = 255 - img y x c := by
  unfold invert_colors
  omega

/-- Witness for C6 at the concrete pixel value 100. -/
theorem invert_invert_identity_witness :
    ((fun _ _ _ => 100 : Frame) 0 0 0 ≤ 255) ∧
    (invert_colors (invert_colors (fun _ _ _ => 100)) 0 0 0 =
        (fun _ _ _ => 100 : Frame) 0 0 0 ∧
      invert_colors (fun _ _ _ => 100) 0 0 0 =
        255 - (fun _ _ _ => 100 : Frame) 0 0 0) :=
  ⟨by decide, invert_invert_identity (fun _ _ _ => 100) 0 0 0 (by decide)⟩

/-- C5: masking a single rectangle affects exactly the pixels in its
intersection with the monitor's local `[0, width] × [0, height]` space (the
clipped rectangle, stated via the spec-worded `specClipContains`): those
pixels are masked (zeroed by `bitwise_and`), all others are unchanged; in
particular a fully-outside rectangle (empty clipped intersection) leaves
every pixel of the output frame unchanged. -/
theorem mask_clipping_correct (m v : Rect) (img : Frame)
    (hv : ∀ y x c, img y x c ≤ 255) (y x : Int) (c : Fin 3) :
    mask_video_regions m [v] img y x c =
      if specClipContains m v y x then 0 else img y x c := by
  have hne : ([v] : List Rect).isEmpty = false := rfl
  simp only [mask_video_regions, hne, Bool.false_eq_true, if_false, maskAt,
    List.any_cons, List.any_nil, Bool.or_false, inMaskedRegion_eq_specClip]
  by_cases hc : specClipContains m v y x
  · simp [hc]
  · simp only [hc, Bool.false_eq_true, if_false]
    exact and_255_of_le (hv y x c)

/-- Witness for C5: monitor `(0,0,4,4)`, rectangle `(2,2,6,6)` partially
overlapping, constant frame 100, evaluated at an inside pixel and an
outside pixel. -/
theorem mask_clipping_correct_witness :
    (∀ y x c, (fun _ _ _ => 100 : Frame) y x c ≤ 255) ∧
    mask_video_regions ⟨0, 0, 4, 4⟩ [⟨2, 2, 6, 6⟩] (fun _ _ _ => 100) 3 3 0 =
      (if specClipContains ⟨0, 0, 4, 4⟩ ⟨2, 2, 6, 6⟩ 3 3 then 0
        else (fun _ _ _ => 100 : Frame) 3 3 0) ∧
    mask_video_regions ⟨0, 0, 4, 4⟩ [⟨2, 2, 6, 6⟩] (fun _ _ _ => 100) 1 1 0 =
      (if specClipContains ⟨0, 0, 4, 4⟩ ⟨2, 2, 6, 6⟩ 1 1 then 0
        else (fun _ _ _ => 100 : Frame) 1 1 0) :=
  ⟨fun _ _ _ => by norm_num,
   mask_clipping_correct ⟨0, 0, 4, 4⟩ ⟨2, 2, 6, 6⟩ (fun _ _ _ => 100)
     (fun _ _ _ => by norm_num) 3 3 0,
   mask_clipping_correct ⟨0, 0, 4, 4⟩ ⟨2, 2, 6, 6⟩ (fun _ _ _ => 100)
     (fun _ _ _ => by norm_num) 1 1 0⟩

/-- C7: applying `mask_video_regions` twice with the same (possibly
overlapping) rectangle set yields a frame equal pixel-for-pixel to applying
it once. -/
theorem mask_video_regions_idempotent (m : Rect) (vws : List Rect)
    (img : Frame) (y x : Int) (c : Fin 3) :
    mask_video_regions m vws (mask_video_regions m vws img) y x c =
      mask_video_regions m vws img y x c := by
  by_cases he : vws.isEmpty
  · simp [mask_video_regions, he]
  · simp only [mask_video_regions, he, Bool.false_eq_true, if_false]
    unfold maskAt
    by_cases hm : vws.any (fun v => inMaskedRegion m v y x)
    · simp [hm]
    · simp only [hm, Bool.false_eq_true, if_false]
      rw [Nat.and_assoc, Nat.and_self]

/-- C1 evaluated: monitor `(0,0,4,4)`, a single excluded rectangle
`R = (1,1,3,3)` fully inside it, captured frame constantly 100.  At pixel
`(1,1)` inside `R` the cycle's output is `0` (black), not the original
captured value `100`; at pixel `(0,0)` outside `R` it is the inverted value
`155`. -/
theorem exclusion_zeroes_excluded_region :
    capture_and_invert_cycle ⟨0, 0, 4, 4⟩ [⟨1, 1, 3, 3⟩] (fun _ _ _ => 100) 1 1 0 = 0 ∧
    (fun _ _ _ => 100 : Frame) 1 1 0 = 100 ∧
    capture_and_invert_cycle ⟨0, 0, 4, 4⟩ [⟨1, 1, 3, 3⟩] (fun _ _ _ => 100) 0 0 0 = 155 := by
  refine ⟨?_, rfl, ?_⟩ <;> decide

/-- A Python-heap view of numpy arrays: reference identifiers mapped to
frame contents. -/
def Heap : Type := Nat → Frame

/-- `mask_video_regions` as an operation on the heap: the function writes
the masked channels back into the argument array itself
(`image[:, :, i] = cv2.bitwise_and(...)`) and returns the same reference;
with no video windows it returns the reference without writing. -/
def mask_video_regions_op (m : Rect) (vws : List Rect) (r : Nat) (h : Heap) :
    Nat × Heap :=
  if vws.isEmpty then (r, h)
  else (r, fun q => if q = r then mask_video_regions m vws (h r) else h q)

/-- C8: `mask_video_regions` returns the very same array reference it
received; every other array on the heap is untouched; and the contents
stored at that reference after the call are `0` at pixels covered by some
clipped rectangle and the prior values everywhere else — the caller's frame
is updated in place even if the returned reference is discarded. -/
theorem mask_video_regions_inplace (m : Rect) (vws : List Rect) (r : Nat)
    (h : Heap) (hv : ∀ y x c, h r y x c ≤ 255) :
    (mask_video_regions_op m vws r h).1 = r ∧
    (∀ q, q ≠ r → (mask_video_regions_op m vws r h).2 q = h q) ∧
    (∀ y x c, (mask_video_regions_op m vws r h).2 r y x c =
      if vws.any (fun v => inMaskedRegion m v y x) then 0 else h r y x c) := by
  by_cases he : vws.isEmpty
  · have hnil : vws = [] := List.isEmpty_iff.mp he
    subst hnil
    simp [mask_video_regions_op]
  · refine ⟨by simp [mask_video_regions_op, he], ?_, ?_⟩
    · intro q hq
      simp [mask_video_regions_op, he, hq]
    · intro y x c
      have hr : (mask_video_regions_op m vws r h).2 r = mask_video_regions m vws (h r) := by
        simp [mask_video_regions_op, he]
      rw [hr]
      simp only [mask_video_regions, he, Bool.false_eq_true, if_false, maskAt]
      by_cases hm : vws.any (fun v => inMaskedRegion m v y x)
      · simp [hm]
      · simp only [hm, Bool.false_eq_true, if_false]
        exact and_255_of_le (hv y x c)

/-- Witness for C8: monitor `(0,0,4,4)`, rectangle `(1,1,3,3)`, array
reference 0 in a heap of constant-100 frames. -/
theorem mask_video_regions_inplace_witness :
    (mask_video_regions_op ⟨0, 0, 4, 4⟩ [⟨1, 1, 3, 3⟩] 0 (fun _ _ _ _ => 100)).1 = 0 ∧
    (mask_video_regions_op ⟨0, 0, 4, 4⟩ [⟨1, 1, 3, 3⟩] 0 (fun _ _ _ _ => 100)).2 1 =
      (fun _ _ _ _ => 100 : Heap) 1 ∧
    (mask_video_regions_op ⟨0, 0, 4, 4⟩ [⟨1, 1, 3, 3⟩] 0 (fun _ _ _ _ => 100)).2 0 1 1 0 =
      (if ([⟨1, 1, 3, 3⟩] : List Rect).any
          (fun v => inMaskedRegion ⟨0, 0, 4, 4⟩ v 1 1) then 0
        else (fun _ _ _ _ => 100 : Heap) 0 1 1 0) :=
  ⟨(mask_video_regions_inplace ⟨0, 0, 4, 4⟩ [⟨1, 1, 3, 3⟩] 0 (fun _ _ _ _ => 100)
      (fun _ _ _ => by norm_num)).1,
   (mask_video_regions_inplace ⟨0, 0, 4, 4⟩ [⟨1, 1, 3, 3⟩] 0 (fun _ _ _ _ => 100)
      (fun _ _ _ => by norm_num)).2.1 1 (by decide),
   (mask_video_regions_inplace ⟨0, 0, 4, 4⟩ [⟨1, 1, 3, 3⟩] 0 (fun _ _ _ _ => 100)
      (fun _ _ _ => by norm_num)).2.2 1 1 0⟩

/-- `WindowsKeyDetector` mutable state: `key_pressed` and
`press_start_time` (clock readings modelled as exact rationals). -/
structure DetState where
  key_pressed : Bool
  press_start_time : ℚ
deriving DecidableEq

/-- One iteration of `WindowsKeyDetector.detection_loop`: reads the polled
key state `pressed` at clock time `t`, updates the state following the
`if`/`elif` chain of the loop body, and reports whether this iteration
fired the callbacks.  On firing, the code resets `press_start_time` to the
current time ("Reset to prevent multiple triggers"). -/
def detection_step (d : ℚ) (s : DetState) (pressed : Bool) (t : ℚ) :
    DetState × Bool :=
  if pressed ∧ ¬ s.key_pressed then (⟨true, t⟩, false)
  else if ¬ pressed ∧ s.key_pressed then (⟨false, 0⟩, false)
  else if pressed ∧ s.key_pressed then
    (if d ≤ t - s.press_start_time then (⟨true, t⟩, true) else (s, false))
  else (s, false)

/-- `detection_loop` over a finite list of polls `(pressed, time)` starting
from state `s`: returns the final state and the number of iterations that
fired the callbacks. -/
def detection_run (d : ℚ) : DetState → List (Bool × ℚ) → DetState × Nat
  | s, [] => (s, 0)
  | s, (p, t) :: rest =>
    ((detection_run d (detection_step d s p t).1 rest).1,
      (if (detection_step d s p t).2 then 1 else 0) +
        (detection_run d (detection_step d s p t).1 rest).2)

/-- Modelled from the amended re-fire behaviour: with the key continuously
held and the press (or previous fire) at time `b`, count the polls at which
at least `d` has elapsed since `b`, resetting the reference time at each
fire. -/
def refireCount (d : ℚ) : ℚ → List ℚ → Nat
  | _, [] => 0
  | b, t :: ts => if d ≤ t - b then 1 + refireCount d t ts else refireCount d b ts

theorem detection_run_held (d : ℚ) (ts : List ℚ) : ∀ b : ℚ,
    (detection_run d ⟨true, b⟩ (ts.map (fun t => (true, t)))).2 = refireCount d b ts ∧
    (detection_run d ⟨true, b⟩ (ts.map (fun t => (true, t)))).1.key_pressed = true := by
  induction ts with
  | nil => intro b; simp [detection_run, refireCount]
  | cons t ts ih =>
    intro b
    by_cases hd : d ≤ t - b
    · simp [detection_run, detection_step, refireCount, hd, ih t]
    · simp [detection_run, detection_step, refireCount, hd, ih b]

/-- C2 (amended): during one continuous physical hold that starts with a
key-down poll at time `t0` and continues through held polls at times `ts`
with no release, the callbacks fire at exactly those polls where at least
the threshold `d` has elapsed since the press or since the previous fire
(`refireCount`); so the first time the hold reaches the threshold they fire
once, but they fire again after each further threshold interval of holding
rather than staying silent until release. -/
theorem hold_gesture_refire (d t0 : ℚ) (ts : List ℚ) (s : DetState)
    (h : s.key_pressed = false) :
    (detection_run d s ((true, t0) :: ts.map (fun t => (true, t)))).2 =
      refireCount d t0 ts ∧
    (detection_run d s ((true, t0) :: ts.map (fun t => (true, t)))).1.key_pressed =
      true := by
  have hstep : detection_step d s true t0 = (⟨true, t0⟩, false) := by
    simp [detection_step, h]
  simp [detection_run, hstep, detection_run_held d ts t0]

/-- Witness for C2's amended theorem: threshold 2 held at times 0, 2, 4. -/
theorem hold_gesture_refire_witness :
    (⟨false, 0⟩ : DetState).key_pressed = false ∧
    ((detection_run 2 ⟨false, 0⟩ ((true, 0) :: [2, 4].map (fun t => (true, t)))).2 =
        refireCount 2 0 [2, 4] ∧
      (detection_run 2 ⟨false, 0⟩
          ((true, 0) :: [2, 4].map (fun t => (true, t)))).1.key_pressed = true) :=
  ⟨rfl, hold_gesture_refire 2 0 [2, 4] ⟨false, 0⟩ rfl⟩

/-- C2 countered: with threshold 2, polling the key down at time 0 and held
at times 2 and 4 with no release, the callbacks fire twice (at times 2 and
4) instead of exactly once for the hold. -/
theorem hold_gesture_fires_twice :
    (detection_run 2 ⟨false, 0⟩ [(true, 0), (true, 2), (true, 4)]).2 = 2 ∧
    (detection_run 2 ⟨false, 0⟩ [(true, 0), (true, 2), (true, 4)]).2 ≠ 1 := by
  norm_num [detection_run, detection_step]

/-- Control-flow skeleton of the `while self.running` loop of
`ColorInverter.capture_and_invert`: each list entry records whether that
cycle's body raises; the body runs inside `try`, and the `except` clause
prints the error and then executes `break`.  Returns (number of cycles
executed, number of errors logged); exhausting the list models `running`
being cleared externally. -/
def capture_loop_run : List Bool → Nat × Nat
  | [] => (0, 0)
  | raises :: rest =>
    if raises then (1, 1)
    else ((capture_loop_run rest).1 + 1, (capture_loop_run rest).2)

/-- C3 countered: with the running flag held set for three available
cycles of which the first raises, the loop executes only that first cycle
and stops, instead of skipping it and continuing through all three; an
error-free run does execute all three. -/
theorem capture_loop_breaks_on_error :
    (capture_loop_run [true, false, false]).1 = 1 ∧
    (capture_loop_run [true, false, false]).1 ≠ 3 ∧
    (capture_loop_run [false, false, false]).1 = 3 := by decide

/-- C3 (amended): a per-cycle error is logged exactly once and terminates
the capture loop at that cycle — the loop executes the error-free prefix of
the cycles plus, when present, the first raising cycle, and runs all cycles
only when none raises. -/
theorem capture_loop_stops_at_first_error (cycles : List Bool) :
    (capture_loop_run cycles).1 =
      min cycles.length ((cycles.takeWhile (fun b => !b)).length + 1) ∧
    (capture_loop_run cycles).2 =
      (if (cycles.takeWhile (fun b => !b)).length < cycles.length then 1 else 0) := by
  induction cycles with
  | nil => simp [capture_loop_run]
  | cons b rest ih =>
    have hle : (rest.takeWhile (fun b => !b)).length ≤ rest.length :=
      List.Sublist.length_le (List.takeWhile_sublist _)
    cases b
    · constructor
      · simp [capture_loop_run, List.takeWhile_cons, ih.1]
        omega
      · simp [capture_loop_run, List.takeWhile_cons, ih.2, Nat.add_lt_add_iff_right]
    · constructor
      · simp [capture_loop_run, List.takeWhile_cons]
      · simp [capture_loop_run, List.takeWhile_cons]

/-- Observable state of one `ColorInverter` instance: the `running` and
`inversion_active` flags and the selected monitor rectangle. -/
structure ColorInverterState where
  monitor_rect : Rect
  running : Bool
  inversion_active : Bool
deriving DecidableEq

/-- `ColorInverter.__init__`: stores the monitor rectangle; `running` and
`inversion_active` start false. -/
def ColorInverter.init (m : Rect) : ColorInverterState :=
  ⟨m, false, false⟩

/-- Observable lifecycle state of `InverterGUI` together with monotone
counters of how many overlay surfaces have been created and how many
capture loops have been started since the application began. -/
structure GUIState where
  inverter : Option ColorInverterState
  inversion_enabled : Bool
  detector_running : Bool
  callbacks_registered : Nat
  surfaces_created : Nat
  loops_started : Nat
deriving DecidableEq

/-- The `InverterGUI` fields right after `__init__`. -/
def initGUIState : GUIState :=
  ⟨none, false, false, 0, 0, 0⟩

/-- `InverterGUI.start_detection` for selected monitor `m`: constructs a
fresh `ColorInverter` and calls its `start`, which sets `running` and
unconditionally creates a new overlay window and starts a new capture
thread (any previously started inverter object is merely replaced, not
stopped).  `add_callback` appends unconditionally;
`WindowsKeyDetector.start` is guarded by `if not self.running`, so the
detector itself starts at most once. -/
def start_detection (m : Rect) (s : GUIState) : GUIState :=
  { inverter := some { ColorInverter.init m with running := true },
    inversion_enabled := s.inversion_enabled,
    detector_running := true,
    callbacks_registered := s.callbacks_registered + 1,
    surfaces_created := s.surfaces_created + 1,
    loops_started := s.loops_started + 1 }

/-- `InverterGUI.stop_detection`: stops the detector, stops and drops the
inverter when one exists (`if self.inverter:`), and clears
`inversion_enabled`; every step is guarded, so it completes on an
already-stopped state as well. -/
def stop_detection (s : GUIState) : GUIState :=
  { s with detector_running := false, inverter := none, inversion_enabled := false }

/-- `InverterGUI.toggle_inversion`: only acts when an inverter exists
(`if self.inverter:`); flips `inversion_enabled` and pushes the new value
into the inverter via `set_inversion_active`. -/
def toggle_inversion (s : GUIState) : GUIState :=
  match s.inverter with
  | none => s
  | some i =>
    { s with inversion_enabled := !s.inversion_enabled,
             inverter := some { i with inversion_active := !s.inversion_enabled } }

/-- C4 countered: from the freshly initialised GUI, calling
`start_detection` twice with the same monitor creates two overlay surfaces
and starts two capture loops, not one. -/
theorem double_start_creates_two_overlays :
    (start_detection ⟨0, 0, 4, 4⟩ (start_detection ⟨0, 0, 4, 4⟩ initGUIState)).surfaces_created = 2 ∧
    (start_detection ⟨0, 0, 4, 4⟩ (start_detection ⟨0, 0, 4, 4⟩ initGUIState)).surfaces_created ≠ 1 ∧
    (start_detection ⟨0, 0, 4, 4⟩ (start_detection ⟨0, 0, 4, 4⟩ initGUIState)).loops_started = 2 := by
  decide

/-- C4 (amended): calling start a second time with the same monitor while
already started creates a second overlay surface and a second capture loop
(start is not idempotent), whereas calling stop when the system is already
stopped completes without error and changes nothing further (stop is
idempotent). -/
theorem start_stop_semantics (m : Rect) (s : GUIState) :
    (start_detection m (start_detection m s)).surfaces_created = s.surfaces_created + 2 ∧
    (start_detection m (start_detection m s)).loops_started = s.loops_started + 2 ∧
    stop_detection (stop_detection s) = stop_detection s := by
  refine ⟨rfl, rfl, rfl⟩

/-- The branch taken by one iteration of `capture_and_invert`, as a
function of `inversion_active`: active cycles capture, invert and draw;
inactive cycles only clear the overlay and perform no capture. -/
inductive CycleAction where
  | captured
  | cleared
deriving DecidableEq

def cycle_branch (active : Bool) : CycleAction :=
  if active then CycleAction.captured else CycleAction.cleared

/-- C10: a freshly started inverter has `inversion_active` false, so every
capture cycle before a toggle takes only the clear-overlay branch and
performs no capture; `stop_detection` resets `inversion_enabled` to false,
so a subsequent start again begins in the non-inverting state. -/
theorem inversion_starts_disabled (m mm : Rect) (s : GUIState) :
    ((start_detection m s).inverter.map (fun i => i.inversion_active)) = some false ∧
    ((start_detection m s).inverter.map (fun i => cycle_branch i.inversion_active)) =
      some CycleAction.cleared ∧
    (stop_detection s).inversion_enabled = false ∧
    ((start_detection mm (stop_detection s)).inverter.map
        (fun i => i.inversion_active)) = some false ∧
    (start_detection mm (stop_detection s)).inversion_enabled = false := by
  refine ⟨rfl, rfl, rfl, rfl, rfl⟩

/-- `WindowsKeyDetector.add_callback`: `self.callbacks.append(callback)`.
Callbacks are modelled as labels of an arbitrary type compared by
(decidable) identity, as Python compares function objects. -/
def add_callback {α : Type} [DecidableEq α] (cbs : List α) (cb : α) : List α :=
  cbs ++ [cb]

/-- `WindowsKeyDetector.remove_callback`:
`if callback in self.callbacks: self.callbacks.remove(callback)` — removes
the first occurrence when present, does nothing otherwise. -/
def remove_callback {α : Type} [DecidableEq α] (cbs : List α) (cb : α) : List α :=
  if cb ∈ cbs then cbs.erase cb else cbs

/-- C9 countered: with callbacks `[0, 1]` already registered, adding
callback `0` again and then removing it yields `[1, 0]`, not the prior list
`[0, 1]` — `list.remove` drops the first occurrence, so the earlier
registration is removed and the newly appended one survives at the end. -/
theorem remove_after_add_reorders :
    remove_callback (add_callback [0, 1] 0) 0 = [1, 0] ∧
    remove_callback (add_callback ([0, 1] : List Nat) 0) 0 ≠ [0, 1] := by decide

/-- C9 (amended): removing an unregistered callback is a no-op that leaves
the list unchanged and raises no error; adding a callback and then removing
it restores the exact prior list whenever that callback was not already
registered, and in general restores the prior list up to permutation (the
same callbacks with the same multiplicities, the first prior occurrence
replaced by the newly appended one). -/
theorem remove_callback_safety {α : Type} [DecidableEq α] (cbs : List α) (cb : α) :
    (cb ∉ cbs → remove_callback cbs cb = cbs) ∧
    (cb ∉ cbs → remove_callback (add_callback cbs cb) cb = cbs) ∧
    List.Perm (remove_callback (add_callback cbs cb) cb) cbs := by
  have hmem : cb ∈ add_callback cbs cb := by
    simp [add_callback]
  refine ⟨?_, ?_, ?_⟩
  · intro h
    simp [remove_callback, h]
  · intro h
    rw [remove_callback, if_pos hmem, add_callback, List.erase_append_right _ h]
    simp
  · rw [remove_callback, if_pos hmem]
    have hperm : List.Perm (add_callback cbs cb) (cb :: cbs) :=
      List.perm_append_singleton cb cbs
    calc List.Perm ((add_callback cbs cb).erase cb) ((cb :: cbs).erase cb) :=
          hperm.erase cb
      _ = cbs := by rw [List.erase_cons_head]

/-- Witness for C9's amended theorem at `cbs = [1]`, `cb = 0` (and the
permutation part also at `cbs = [0, 1]`, `cb = 0`). -/
theorem remove_callback_safety_witness :
    remove_callback ([1] : List Nat) 0 = [1] ∧
    remove_callback (add_callback ([1] : List Nat) 0) 0 = [1] ∧
    List.Perm (remove_callback (add_callback ([0, 1] : List Nat) 0) 0) [0, 1] :=
  ⟨(remove_callback_safety [1] 0).1 (by decide),
   (remove_callback_safety [1] 0).2.1 (by decide),
   (remove_callback_safety [0, 1] 0).2.2⟩
